import Mathlib

/-!
Shallow embedding of the persistence and retention layer of the
player_visualization repository (src/database_manager.py, with the barrel
computation also in src/mlb_data_scraper.py).

Modelling conventions:
 - SQL tables are Lean lists of rows; the AUTOINCREMENT surrogate id of
   statcast_data is modelled explicitly (it is read by the dedup routine);
   the surrogate ids of daily_hitting, daily_pitching and data_updates are
   omitted because no code in the repository ever reads them.
 - Calendar dates are integers: the code stores dates as YYYY-MM-DD strings
   and compares them with SQL < / BETWEEN, and lexicographic order on that
   fixed format coincides with chronological order.
 - SQL REAL columns are Option Rat: None models SQL NULL / pandas NaN.
   The pandas comparisons (x >= 98, between) yield False on NaN, which the
   embedding reproduces by matching on the Option.
 - The external statcast source (pyb.statcast) is a parameter: a
   FetchResult that is either a list of raw rows (possibly empty) or an
   error, the latter modelling an exception raised by the remote call or
   the database write; the embedded driver is a total function into the
   new database state, reflecting that fetch_and_store_single_day catches
   every exception.
 - datetime.now() is a parameter named today.
-/

/-- A row of the statcast_data table (schema of create_tables,
src/database_manager.py lines 77-129).  Fields follow the CREATE TABLE
column list; id is the INTEGER PRIMARY KEY AUTOINCREMENT surrogate. -/
structure StatcastRow where
  id : Nat
  date : Int
  player_id : Option String
  player_name : Option String
  pitch_type : Option String
  game_date : Option Int
  release_speed : Option Rat
  release_pos_x : Option Rat
  release_pos_y : Option Rat
  release_pos_z : Option Rat
  batter : Option String
  pitcher : Option String
  events : Option String
  description : Option String
  zone : Option Int
  stand : Option String
  p_throws : Option String
  home_team : Option String
  away_team : Option String
  type : Option String
  hit_location : Option Int
  bb_type : Option String
  balls : Option Int
  strikes : Option Int
  pfx_x : Option Rat
  pfx_z : Option Rat
  plate_x : Option Rat
  plate_z : Option Rat
  vx0 : Option Rat
  vy0 : Option Rat
  vz0 : Option Rat
  ax : Option Rat
  ay : Option Rat
  az : Option Rat
  sz_top : Option Rat
  sz_bot : Option Rat
  hit_distance_sc : Option Rat
  launch_speed : Option Rat
  launch_angle : Option Rat
  effective_speed : Option Rat
  release_spin_rate : Option Rat
  release_extension : Option Rat
  game_pk : Option Int
  pitcher_id : Option Int
  batter_id : Option Int
  hc_x : Option Rat
  hc_y : Option Rat
  barrel : Bool
  deriving DecidableEq, Repr, Inhabited

/-- A row of the daily_hitting table (src/database_manager.py lines 19-48).
The AUTOINCREMENT surrogate id is omitted: it is never read. -/
structure HittingRow where
  date : Int
  player_id : Option String
  player_name : String
  team : Option String
  games : Option Int
  plate_appearances : Option Int
  at_bats : Option Int
  runs : Option Int
  hits : Option Int
  doubles : Option Int
  triples : Option Int
  home_runs : Option Int
  rbi : Option Int
  stolen_bases : Option Int
  caught_stealing : Option Int
  walks : Option Int
  strikeouts : Option Int
  batting_avg : Option Rat
  on_base_pct : Option Rat
  slugging_pct : Option Rat
  ops : Option Rat
  woba : Option Rat
  wrc_plus : Option Rat
  war : Option Rat
  deriving DecidableEq, Repr, Inhabited

/-- A row of the daily_pitching table (src/database_manager.py lines 50-75).
The AUTOINCREMENT surrogate id is omitted: it is never read. -/
structure PitchingRow where
  date : Int
  player_id : Option String
  player_name : String
  team : Option String
  games : Option Int
  games_started : Option Int
  innings_pitched : Option Rat
  hits_allowed : Option Int
  runs_allowed : Option Int
  earned_runs : Option Int
  home_runs_allowed : Option Int
  walks_allowed : Option Int
  strikeouts : Option Int
  era : Option Rat
  whip : Option Rat
  fip : Option Rat
  xfip : Option Rat
  war : Option Rat
  saves : Option Int
  holds : Option Int
  deriving DecidableEq, Repr, Inhabited

/-- A row of the data_updates ledger (src/database_manager.py lines
131-140), with UNIQUE(data_date).  The AUTOINCREMENT surrogate id is
omitted: it is never read. -/
structure LedgerRow where
  update_date : Int
  data_date : Int
  records_added : Int
  status : String
  deriving DecidableEq, Repr

/-- The database state: the four tables plus the next AUTOINCREMENT value
for statcast_data. -/
structure DB where
  daily_hitting : List HittingRow
  daily_pitching : List PitchingRow
  statcast_data : List StatcastRow
  data_updates : List LedgerRow
  next_statcast_id : Nat
  deriving DecidableEq, Repr

/-- A raw pitch-event row as returned by the external statcast source,
restricted to the column allow-list of get_statcast_columns
(src/database_manager.py lines 316-325); the date column is overwritten by
the driver before insertion, so it is not part of the raw row. -/
structure RawRow where
  player_name : Option String
  pitch_type : Option String
  game_date : Option Int
  release_speed : Option Rat
  release_pos_x : Option Rat
  release_pos_y : Option Rat
  release_pos_z : Option Rat
  batter : Option String
  pitcher : Option String
  events : Option String
  description : Option String
  zone : Option Int
  stand : Option String
  p_throws : Option String
  home_team : Option String
  away_team : Option String
  type : Option String
  hit_location : Option Int
  bb_type : Option String
  balls : Option Int
  strikes : Option Int
  pfx_x : Option Rat
  pfx_z : Option Rat
  plate_x : Option Rat
  plate_z : Option Rat
  vx0 : Option Rat
  vy0 : Option Rat
  vz0 : Option Rat
  ax : Option Rat
  ay : Option Rat
  az : Option Rat
  sz_top : Option Rat
  sz_bot : Option Rat
  hit_distance_sc : Option Rat
  launch_speed : Option Rat
  launch_angle : Option Rat
  effective_speed : Option Rat
  release_spin_rate : Option Rat
  release_extension : Option Rat
  game_pk : Option Int
  hc_x : Option Rat
  hc_y : Option Rat
  deriving DecidableEq, Repr, Inhabited

/-- Result of one call to the external statcast source for one day: either
a (possibly empty) list of rows, or an exception raised by the remote call
or by the subsequent database write. -/
inductive FetchResult where
  | rows (data : List RawRow)
  | error (msg : String)
  deriving DecidableEq, Repr

/-- The derived barrel flag (src/database_manager.py lines 275-278 and
src/mlb_data_scraper.py lines 92-97):
(launch_speed >= 98) & (launch_angle.between(26, 30)), then fillna(False).
pandas .between is inclusive on both ends; a NaN on either side makes the
comparison False. -/
def barrelFlag (ls la : Option Rat) : Bool :=
  match ls, la with
  | some s, some a => decide (98 ≤ s) && (decide (26 ≤ a) && decide (a ≤ 30))
  | _, _ => false

/-- The stored statcast row built from a raw fetched row: the date column
is set to the fetched day, barrel is derived, the surrogate id is assigned
by AUTOINCREMENT, and schema columns absent from the fetched frame
(player_id, pitcher_id, batter_id) are NULL. -/
def mkStoredRow (d : Int) (i : Nat) (raw : RawRow) : StatcastRow :=
  { id := i
    date := d
    player_id := none
    player_name := raw.player_name
    pitch_type := raw.pitch_type
    game_date := raw.game_date
    release_speed := raw.release_speed
    release_pos_x := raw.release_pos_x
    release_pos_y := raw.release_pos_y
    release_pos_z := raw.release_pos_z
    batter := raw.batter
    pitcher := raw.pitcher
    events := raw.events
    description := raw.description
    zone := raw.zone
    stand := raw.stand
    p_throws := raw.p_throws
    home_team := raw.home_team
    away_team := raw.away_team
    type := raw.type
    hit_location := raw.hit_location
    bb_type := raw.bb_type
    balls := raw.balls
    strikes := raw.strikes
    pfx_x := raw.pfx_x
    pfx_z := raw.pfx_z
    plate_x := raw.plate_x
    plate_z := raw.plate_z
    vx0 := raw.vx0
    vy0 := raw.vy0
    vz0 := raw.vz0
    ax := raw.ax
    ay := raw.ay
    az := raw.az
    sz_top := raw.sz_top
    sz_bot := raw.sz_bot
    hit_distance_sc := raw.hit_distance_sc
    launch_speed := raw.launch_speed
    launch_angle := raw.launch_angle
    effective_speed := raw.effective_speed
    release_spin_rate := raw.release_spin_rate
    release_extension := raw.release_extension
    game_pk := raw.game_pk
    pitcher_id := none
    batter_id := none
    hc_x := raw.hc_x
    hc_y := raw.hc_y
    barrel := barrelFlag raw.launch_speed raw.launch_angle }

/-- to_sql append: each inserted row receives the next AUTOINCREMENT id. -/
def assignIds (d : Int) (nextId : Nat) : List RawRow → List StatcastRow
  | [] => []
  | raw :: rest => mkStoredRow d nextId raw :: assignIds d (nextId + 1) rest

/-- INSERT OR REPLACE into data_updates with UNIQUE(data_date): any
existing row with the same data_date is replaced by the new row. -/
def ledgerUpsert (ledger : List LedgerRow) (e : LedgerRow) : List LedgerRow :=
  ledger.filter (fun r => decide (r.data_date ≠ e.data_date)) ++ [e]

/-- fetch_and_store_single_day (src/database_manager.py lines 261-314).
today models datetime.now(); resp models the outcome of the statcast call
for the given date (error also covers an exception from the database
write).  Every exception is caught: the function is total and the error
path only records a ledger entry with status "error: <message>". -/
def fetch_and_store_single_day (today : Int) (date : Int) (resp : FetchResult)
    (db : DB) : DB :=
  match resp with
  | .error msg =>
      { db with
        data_updates := ledgerUpsert db.data_updates
          { update_date := today, data_date := date, records_added := 0,
            status := "error: " ++ msg } }
  | .rows data =>
      if data.isEmpty then
        db
      else
        let existing_count := db.statcast_data.countP (fun r => decide (r.date = date))
        let kept :=
          if existing_count > 0 then
            db.statcast_data.filter (fun r => decide (r.date ≠ date))
          else
            db.statcast_data
        let inserted := assignIds date db.next_statcast_id data
        { daily_hitting := db.daily_hitting
          daily_pitching := db.daily_pitching
          statcast_data := kept ++ inserted
          data_updates := ledgerUpsert db.data_updates
            { update_date := today, data_date := date,
              records_added := (data.length : Int), status := "success" }
          next_statcast_id := db.next_statcast_id + data.length }

/-- fetch_and_store_date_range (src/database_manager.py lines 252-259):
iterate one day at a time from start_date to end_date inclusive; responses
gives the fixed upstream response for each date. -/
def fetch_and_store_date_range (today : Int) (responses : Int → FetchResult)
    (start_date end_date : Int) (db : DB) : DB :=
  if _h : start_date ≤ end_date then
    fetch_and_store_date_range today responses (start_date + 1) end_date
      (fetch_and_store_single_day today start_date (responses start_date) db)
  else
    db
termination_by (end_date + 1 - start_date).toNat
decreasing_by simp_wf; omega

/-- The list of dates visited by the range driver, in visiting order. -/
def dateList (start_date end_date : Int) : List Int :=
  if _h : start_date ≤ end_date then
    start_date :: dateList (start_date + 1) end_date
  else
    []
termination_by (end_date + 1 - start_date).toNat
decreasing_by simp_wf; omega

/-- remove_old_data (src/database_manager.py lines 327-335): cutoff =
today - days_to_keep (default 45); DELETE ... WHERE date < cutoff is issued
against daily_hitting, daily_pitching and statcast_data only. -/
def remove_old_data (today : Int) (days_to_keep : Int) (db : DB) : DB :=
  let cutoff_date := today - days_to_keep
  { db with
    daily_hitting := db.daily_hitting.filter (fun r => decide (¬ r.date < cutoff_date))
    daily_pitching := db.daily_pitching.filter (fun r => decide (¬ r.date < cutoff_date))
    statcast_data := db.statcast_data.filter (fun r => decide (¬ r.date < cutoff_date)) }

/-- The seven-field natural key of a statcast row, as in the GROUP BY of
remove_duplicate_data and the UNIQUE constraint of the table. -/
structure SKey where
  date : Int
  game_pk : Option Int
  pitcher_id : Option Int
  batter_id : Option Int
  balls : Option Int
  strikes : Option Int
  pitch_type : Option String
  deriving DecidableEq, Repr

/-- Project a statcast row to its seven-field natural key. -/
def statcastKey (r : StatcastRow) : SKey :=
  { date := r.date, game_pk := r.game_pk, pitcher_id := r.pitcher_id,
    batter_id := r.batter_id, balls := r.balls, strikes := r.strikes,
    pitch_type := r.pitch_type }

/-- SQL MIN over a list of ids (none iff the list is empty). -/
def listMinN : List Nat → Option Nat
  | [] => none
  | a :: l =>
      some (match listMinN l with
            | none => a
            | some m => Nat.min a m)

/-- SELECT MIN(id) FROM statcast_data GROUP BY the seven-field key: one
minimal id per distinct key value. -/
def groupMinIds (rows : List StatcastRow) : List Nat :=
  ((rows.map statcastKey).dedup).filterMap
    (fun k => listMinN ((rows.filter (fun r => decide (statcastKey r = k))).map (fun r => r.id)))

/-- remove_duplicate_data (src/database_manager.py lines 337-369): DELETE
rows whose id is not among the per-group minimal ids; return (new state,
count removed = before - after). -/
def remove_duplicate_data (db : DB) : DB × Nat :=
  let before_count := db.statcast_data.length
  let keep := groupMinIds db.statcast_data
  let remaining := db.statcast_data.filter (fun r => keep.contains r.id)
  let after_count := remaining.length
  ({ db with statcast_data := remaining }, before_count - after_count)

/-- A row of the Chadwick register (external player directory), projected
to the four columns the repository consults: name_last, name_first,
key_mlbam and mlb_played_last.  Option models a missing (NaN) cell. -/
structure RegRow where
  name_last : String
  name_first : String
  key_mlbam : Option Int
  mlb_played_last : Option Int
  deriving DecidableEq, Repr

/-- The in-memory state of MLBDatabaseManager: the database plus the
player_register cache (None until the first load). -/
structure MgrState where
  db : DB
  player_register : Option (List RegRow)
  deriving DecidableEq, Repr

/-- load_player_register (src/database_manager.py lines 168-179): on the
first call fetch the external register (the chadwick parameter) and cache
the rows with a non-null key_mlbam and mlb_played_last >= 2020; later
calls return the cache.  The pandas comparison is False on NaN, hence the
match on mlb_played_last. -/
def load_player_register (chadwick : List RegRow) (st : MgrState) :
    MgrState × List RegRow :=
  match st.player_register with
  | some reg => (st, reg)
  | none =>
      let reg := chadwick.filter (fun r =>
        r.key_mlbam.isSome &&
        (match r.mlb_played_last with
         | some y => decide (2020 ≤ y)
         | none => false))
      ({ st with player_register := some reg }, reg)

/-- The Python membership test `"," in s`, modelled over the character
list of the string. -/
def containsComma (s : String) : Bool :=
  s.data.contains ','

/-- Python s.split(",", 1): the characters before the first comma and the
characters after it. -/
def splitFirstComma (s : String) : String × String :=
  (String.mk (s.data.takeWhile (fun c => !(c == ','))),
   String.mk ((s.data.dropWhile (fun c => !(c == ','))).tail))

/-- Python s.strip(): drop leading and trailing whitespace. -/
def pyStrip (s : String) : String :=
  String.mk
    (((s.data.dropWhile Char.isWhitespace).reverse.dropWhile Char.isWhitespace).reverse)

/-- The pure part of get_player_id_from_name: only a name containing a
comma is split (at the first comma, both parts stripped, mirroring
split(",", 1)) and matched against the register; any other name yields
None, as does a name whose parts match no register row. -/
def lookupIdInRegister (register : List RegRow) (player_name : String) : Option Int :=
  if containsComma player_name then
    let parts := splitFirstComma player_name
    let last_name := pyStrip parts.1
    let first_name := pyStrip parts.2
    match register.find? (fun r =>
        r.name_last == last_name && r.name_first == first_name) with
    | some row => row.key_mlbam
    | none => none
  else
    none

/-- get_player_id_from_name (src/database_manager.py lines 198-217): the
register is loaded first (line 200, before the comma test), then the name
is resolved against it. -/
def get_player_id_from_name (chadwick : List RegRow) (player_name : String)
    (st : MgrState) : MgrState × Option Int :=
  let lr := load_player_register chadwick st
  (lr.1, lookupIdInRegister lr.2 player_name)

/-- The three result sets returned by get_player_data. -/
structure PlayerData where
  hitting : List HittingRow
  pitching : List PitchingRow
  statcast : List StatcastRow
  deriving DecidableEq, Repr

/-- Insert into a date-descending list (model of ORDER BY date DESC). -/
def insertDateDesc (dateOf : α → Int) (x : α) : List α → List α
  | [] => [x]
  | y :: l =>
      if dateOf y < dateOf x then x :: y :: l else y :: insertDateDesc dateOf x l

/-- ORDER BY date DESC, modelled as a stable insertion sort. -/
def orderByDateDesc (dateOf : α → Int) : List α → List α
  | [] => []
  | x :: l => insertDateDesc dateOf x (orderByDateDesc dateOf l)

/-- get_player_data (src/database_manager.py lines 371-424): default range
is the trailing 45 days; the player id is resolved through the register;
the statcast query matches player_name or the stringified id when an id
was found (a Python truthiness test, so id 0 also falls back), and
player_name alone otherwise. -/
def get_player_data (chadwick : List RegRow) (player_name : String)
    (start_date end_date : Option Int) (today : Int) (st : MgrState) :
    MgrState × PlayerData :=
  let s := start_date.getD (today - 45)
  let e := end_date.getD today
  let res := get_player_id_from_name chadwick player_name st
  let st1 := res.1
  let player_id := res.2
  let hitting := orderByDateDesc (fun r => r.date)
    (st1.db.daily_hitting.filter (fun r =>
      r.player_name == player_name && decide (s ≤ r.date) && decide (r.date ≤ e)))
  let pitching := orderByDateDesc (fun r => r.date)
    (st1.db.daily_pitching.filter (fun r =>
      r.player_name == player_name && decide (s ≤ r.date) && decide (r.date ≤ e)))
  let statcast :=
    match player_id with
    | some pid =>
        if pid = 0 then
          orderByDateDesc (fun r => r.date)
            (st1.db.statcast_data.filter (fun r =>
              r.player_name == some player_name &&
              decide (s ≤ r.date) && decide (r.date ≤ e)))
        else
          orderByDateDesc (fun r => r.date)
            (st1.db.statcast_data.filter (fun r =>
              (r.player_name == some player_name ||
               r.batter == some (toString pid) ||
               r.pitcher == some (toString pid)) &&
              decide (s ≤ r.date) && decide (r.date ≤ e)))
    | none =>
        orderByDateDesc (fun r => r.date)
          (st1.db.statcast_data.filter (fun r =>
            r.player_name == some player_name &&
            decide (s ≤ r.date) && decide (r.date ≤ e)))
  (st1, { hitting := hitting, pitching := pitching, statcast := statcast })

/-! ### Concrete fixtures used to instantiate the theorems below -/

/-- An empty database, as produced by create_tables on a fresh file. -/
def exDB0 : DB :=
  { daily_hitting := [], daily_pitching := [], statcast_data := [],
    data_updates := [], next_statcast_id := 1 }

/-- A raw fetched row with launch speed 99 and launch angle 28. -/
def exRaw99 : RawRow :=
  { (default : RawRow) with launch_speed := some 99, launch_angle := some 28 }

/-- A hitting line dated inside a 45-day window ending at day 100. -/
def exHitRow : HittingRow :=
  { (default : HittingRow) with date := 60, player_name := "Judge, Aaron" }

/-- A hitting line dated before the day-100 cutoff. -/
def exHitRowOld : HittingRow :=
  { (default : HittingRow) with date := 10, player_name := "Old, Player" }

/-- A pitching line dated before the day-100 cutoff. -/
def exPitchRowOld : PitchingRow :=
  { (default : PitchingRow) with date := 10, player_name := "Old, Pitcher" }

/-- A ledger entry whose data_date is far before any cutoff. -/
def exLedgerOld : LedgerRow :=
  { update_date := 10, data_date := 0, records_added := 5, status := "success" }

/-- A database holding fresh and stale rows plus a stale ledger entry. -/
def exDB1 : DB :=
  { daily_hitting := [exHitRow, exHitRowOld], daily_pitching := [exPitchRowOld],
    statcast_data := [], data_updates := [exLedgerOld], next_statcast_id := 1 }

/-- Two statcast rows agreeing on the seven-field natural key. -/
def exRow1 : StatcastRow :=
  { (default : StatcastRow) with id := 1, date := 5, balls := some 1, strikes := some 2 }

/-- Duplicate of exRow1 under the natural key, with a larger id. -/
def exRow2 : StatcastRow :=
  { (default : StatcastRow) with id := 2, date := 5, balls := some 1, strikes := some 2 }

/-- A statcast row with a different natural key. -/
def exRow3 : StatcastRow :=
  { (default : StatcastRow) with id := 3, date := 6 }

/-- A database whose statcast table holds one duplicated key group. -/
def exDB3 : DB :=
  { daily_hitting := [], daily_pitching := [], statcast_data := [exRow1, exRow2, exRow3],
    data_updates := [], next_statcast_id := 4 }

/-- A one-row external player register. -/
def chadwick0 : List RegRow :=
  [{ name_last := "Trout", name_first := "Mike", key_mlbam := some 545361,
     mlb_played_last := some 2023 }]

/-- A statcast row naming a different player than the lookups below. -/
def exRowCole : StatcastRow :=
  { (default : StatcastRow) with id := 1, date := 60, player_name := some "Cole, Gerrit" }

/-- A database with rows for players other than the one looked up. -/
def exDB8 : DB :=
  { daily_hitting := [exHitRow], daily_pitching := [], statcast_data := [exRowCole],
    data_updates := [], next_statcast_id := 2 }

/-! ### Helper observations and lemmas shared by the verification below -/

/-- Erase the surrogate id of a statcast row: the projection under which
two rows count as having the same content. -/
def eraseId (r : StatcastRow) : StatcastRow :=
  { r with id := 0 }

theorem assignIds_date (d : Int) :
    ∀ (n : Nat) (l : List RawRow), ∀ r ∈ assignIds d n l, r.date = d := by
  intro n l
  induction l generalizing n with
  | nil => intro r hr; cases hr
  | cons a t ih =>
      intro r hr
      rcases (List.mem_cons).mp hr with h | h
      · subst h; rfl
      · exact ih (n + 1) r h

theorem mem_assignIds {d : Int} {n : Nat} {l : List RawRow} {r : StatcastRow}
    (h : r ∈ assignIds d n l) : ∃ i raw, raw ∈ l ∧ r = mkStoredRow d i raw := by
  induction l generalizing n with
  | nil => cases h
  | cons a t ih =>
      rcases (List.mem_cons).mp h with h1 | h1
      · exact ⟨n, a, List.mem_cons_self a t, h1⟩
      · rcases ih h1 with ⟨i, raw, hraw, hr⟩
        exact ⟨i, raw, List.mem_cons_of_mem a hraw, hr⟩

theorem assignIds_map_eraseId (d : Int) :
    ∀ (n : Nat) (l : List RawRow),
      (assignIds d n l).map eraseId = l.map (fun raw => mkStoredRow d 0 raw) := by
  intro n l
  induction l generalizing n with
  | nil => rfl
  | cons a t ih =>
      simp only [assignIds, List.map_cons]
      exact congrArg (fun x => eraseId (mkStoredRow d n a) :: x) (ih (n + 1))

theorem filter_ne_assignIds (d : Int) (n : Nat) (l : List RawRow) :
    (assignIds d n l).filter (fun r => decide (r.date ≠ d)) = [] :=
  List.filter_eq_nil_iff.mpr (fun r hr => by simp [assignIds_date d n l r hr])

theorem filter_eq_assignIds (d : Int) (n : Nat) (l : List RawRow) :
    (assignIds d n l).filter (fun r => decide (r.date = d)) = assignIds d n l :=
  List.filter_eq_self.mpr (fun r hr => by simp [assignIds_date d n l r hr])

theorem filter_eq_of_filter_ne (d : Int) (l : List StatcastRow) :
    (l.filter (fun r => decide (r.date ≠ d))).filter (fun r => decide (r.date = d)) = [] := by
  rw [List.filter_filter]
  apply List.filter_eq_nil_iff.mpr
  intro r _
  by_cases h : r.date = d <;> simp [h]

theorem filter_ne_idem (d : Int) (l : List StatcastRow) :
    (l.filter (fun r => decide (r.date ≠ d))).filter (fun r => decide (r.date ≠ d)) =
      l.filter (fun r => decide (r.date ≠ d)) :=
  List.filter_eq_self.mpr (fun r hr => (List.mem_filter.mp hr).2)

/-- Characterization of the non-empty fetch path: existing rows for the
date are removed (a no-op when none exist), the fresh set is appended with
sequential ids, and the ledger is upserted with a success entry. -/
theorem singleDay_rows_statcast (today d : Int) (data : List RawRow) (db : DB)
    (h : data ≠ []) :
    (fetch_and_store_single_day today d (.rows data) db).statcast_data =
        db.statcast_data.filter (fun r => decide (r.date ≠ d)) ++
          assignIds d db.next_statcast_id data ∧
    (fetch_and_store_single_day today d (.rows data) db).next_statcast_id =
        db.next_statcast_id + data.length ∧
    (fetch_and_store_single_day today d (.rows data) db).data_updates =
        ledgerUpsert db.data_updates
          { update_date := today, data_date := d,
            records_added := (data.length : Int), status := "success" } := by
  have hne : data.isEmpty = false := by
    cases data with
    | nil => exact absurd rfl h
    | cons a t => rfl
  unfold fetch_and_store_single_day
  simp only [hne, Bool.false_eq_true, if_false]
  by_cases hc : db.statcast_data.countP (fun r => decide (r.date = d)) > 0
  · simp [hc]
  · have h0 : db.statcast_data.countP (fun r => decide (r.date = d)) = 0 := by omega
    have hself : db.statcast_data.filter (fun r => !decide (r.date = d)) = db.statcast_data := by
      apply List.filter_eq_self.mpr
      intro r hr
      have := (List.countP_eq_zero.mp h0) r hr
      simpa using this
    simp [hc, hself]

theorem singleDay_error_effect (today d : Int) (msg : String) (db : DB) :
    (fetch_and_store_single_day today d (.error msg) db).statcast_data =
        db.statcast_data ∧
    (fetch_and_store_single_day today d (.error msg) db).daily_hitting =
        db.daily_hitting ∧
    (fetch_and_store_single_day today d (.error msg) db).daily_pitching =
        db.daily_pitching ∧
    (fetch_and_store_single_day today d (.error msg) db).next_statcast_id =
        db.next_statcast_id ∧
    (fetch_and_store_single_day today d (.error msg) db).data_updates =
        ledgerUpsert db.data_updates
          { update_date := today, data_date := d, records_added := 0,
            status := "error: " ++ msg } := by
  unfold fetch_and_store_single_day
  exact ⟨rfl, rfl, rfl, rfl, rfl⟩

theorem singleDay_empty_noop (today d : Int) (db : DB) :
    fetch_and_store_single_day today d (.rows []) db = db := rfl

theorem ledgerUpsert_filter (l : List LedgerRow) (e : LedgerRow) :
    (ledgerUpsert l e).filter (fun r => decide (r.data_date = e.data_date)) = [e] := by
  unfold ledgerUpsert
  rw [List.filter_append, List.filter_filter]
  have h1 : l.filter
      (fun a => decide (a.data_date = e.data_date) && decide (a.data_date ≠ e.data_date)) = [] := by
    apply List.filter_eq_nil_iff.mpr
    intro r _
    by_cases h : r.data_date = e.data_date <;> simp [h]
  rw [h1]
  simp

theorem ledgerUpsert_countP (l : List LedgerRow) (e : LedgerRow) (dd : Int) :
    (ledgerUpsert l e).countP (fun r => decide (r.data_date = dd)) =
      if dd = e.data_date then 1
      else l.countP (fun r => decide (r.data_date = dd)) := by
  unfold ledgerUpsert
  rw [List.countP_append, List.countP_filter]
  by_cases h : dd = e.data_date
  · have h1 : List.countP
        (fun a => decide (a.data_date = dd) && decide (a.data_date ≠ e.data_date)) l = 0 := by
      apply List.countP_eq_zero.mpr
      intro r _
      rw [h]
      by_cases hr : r.data_date = e.data_date <;> simp [hr]
    rw [h1, if_pos h]
    have h2 : List.countP (fun r => decide (r.data_date = dd)) [e] = 1 := by
      simp only [List.countP_cons, List.countP_nil]
      simp [h]
    rw [h2]
  · have h1 : List.countP
        (fun a => decide (a.data_date = dd) && decide (a.data_date ≠ e.data_date)) l =
          List.countP (fun a => decide (a.data_date = dd)) l := by
      apply List.countP_congr
      intro r _
      by_cases hr : r.data_date = dd
      · have hne2 : r.data_date ≠ e.data_date := by rw [hr]; exact h
        simp [hr, hne2, h]
      · simp [hr]
    rw [h1, if_neg h]
    have h2 : List.countP (fun r => decide (r.data_date = dd)) [e] = 0 := by
      simp only [List.countP_cons, List.countP_nil]
      have hne3 : ¬ e.data_date = dd := fun hc => h hc.symm
      simp [hne3]
    rw [h2]
    exact Nat.add_zero _

theorem ledgerUpsert_atMostOne (l : List LedgerRow) (e : LedgerRow)
    (hinv : ∀ dd : Int, l.countP (fun r => decide (r.data_date = dd)) ≤ 1) :
    ∀ dd : Int, (ledgerUpsert l e).countP (fun r => decide (r.data_date = dd)) ≤ 1 := by
  intro dd
  rw [ledgerUpsert_countP]
  by_cases hdd : dd = e.data_date
  · rw [if_pos hdd]
  · rw [if_neg hdd]
    exact hinv dd

theorem listMinN_cons (a : Nat) (t : List Nat) :
    listMinN (a :: t) =
      some (match listMinN t with | none => a | some m => Nat.min a m) := rfl

theorem listMinN_mem : ∀ {l : List Nat} {m : Nat}, listMinN l = some m → m ∈ l := by
  intro l
  induction l with
  | nil => intro m h; cases h
  | cons a t ih =>
      intro m h
      injection h with h
      cases ht : listMinN t with
      | none =>
          rw [ht] at h
          have h3 : a = m := h
          subst h3
          exact List.mem_cons_self a t
      | some k =>
          rw [ht] at h
          have h3 : min a k = m := h
          have hd : m = a ∨ m = k := by omega
          rcases hd with h1 | h1
          · rw [h1]
            exact List.mem_cons_self a t
          · rw [h1]
            exact List.mem_cons_of_mem a (ih ht)

theorem listMinN_le : ∀ {l : List Nat} {m : Nat}, listMinN l = some m →
    ∀ b ∈ l, m ≤ b := by
  intro l
  induction l with
  | nil => intro m h; cases h
  | cons a t ih =>
      intro m h b hb
      injection h with h
      cases ht : listMinN t with
      | none =>
          rw [ht] at h
          have h3 : a = m := h
          have htn : t = [] := by
            cases t with
            | nil => rfl
            | cons x s => simp [listMinN] at ht
          have h1 : b = a := by
            subst htn
            rcases (List.mem_cons).mp hb with h1 | h1
            · exact h1
            · cases h1
          omega
      | some k =>
          rw [ht] at h
          have h3 : min a k = m := h
          rcases (List.mem_cons).mp hb with h1 | h1
          · have h5 := Nat.min_le_left a k
            omega
          · have h4 := ih ht b h1
            have h5 := Nat.min_le_right a k
            omega

theorem listMinN_ne_nil {l : List Nat} (h : l ≠ []) : ∃ m, listMinN l = some m := by
  cases l with
  | nil => exact absurd rfl h
  | cons a t => exact ⟨_, rfl⟩

/-- With distinct surrogate ids, an id survives the dedup DELETE exactly
when its row is the minimal-id member of its natural-key group. -/
theorem mem_groupMinIds {rows : List StatcastRow}
    (hnd : (rows.map (fun r => r.id)).Nodup) {r : StatcastRow} (hr : r ∈ rows) :
    (groupMinIds rows).contains r.id = true ↔
      ∀ s ∈ rows, statcastKey s = statcastKey r → r.id ≤ s.id := by
  have hinj : ∀ ⦃x⦄, x ∈ rows → ∀ ⦃y⦄, y ∈ rows → x.id = y.id → x = y :=
    List.inj_on_of_nodup_map hnd
  constructor
  · intro hc
    have hc2 : List.elem r.id (groupMinIds rows) = true := hc
    have hmem : r.id ∈ groupMinIds rows := List.elem_iff.mp hc2
    rcases List.mem_filterMap.mp hmem with ⟨k, _hk, hmin⟩
    have hmm := listMinN_mem hmin
    rcases List.mem_map.mp hmm with ⟨g, hg, hgid⟩
    have hgrows : g ∈ rows := (List.mem_filter.mp hg).1
    have hgkey : statcastKey g = k := by
      have := (List.mem_filter.mp hg).2
      simpa using this
    have hgr : g = r := hinj hgrows hr hgid
    intro s hs hks
    have hskey : statcastKey s = k := by rw [hks, ← hgr, hgkey]
    have hsgrp : s ∈ rows.filter (fun x => decide (statcastKey x = k)) :=
      List.mem_filter.mpr ⟨hs, by simp [hskey]⟩
    have hsid : s.id ∈ (rows.filter (fun x => decide (statcastKey x = k))).map
        (fun x => x.id) := List.mem_map.mpr ⟨s, hsgrp, rfl⟩
    exact listMinN_le hmin s.id hsid
  · intro hmin
    have hkmem : statcastKey r ∈ (rows.map statcastKey).dedup :=
      List.mem_dedup.mpr (List.mem_map.mpr ⟨r, hr, rfl⟩)
    have hrgrp : r ∈ rows.filter (fun x => decide (statcastKey x = statcastKey r)) :=
      List.mem_filter.mpr ⟨hr, by simp⟩
    have hrid : r.id ∈ (rows.filter (fun x => decide (statcastKey x = statcastKey r))).map
        (fun x => x.id) := List.mem_map.mpr ⟨r, hrgrp, rfl⟩
    have hne : (rows.filter (fun x => decide (statcastKey x = statcastKey r))).map
        (fun x => x.id) ≠ [] := by
      intro hcon
      rw [hcon] at hrid
      cases hrid
    rcases listMinN_ne_nil hne with ⟨m, hm⟩
    have hmmem := listMinN_mem hm
    rcases List.mem_map.mp hmmem with ⟨g, hg, hgid⟩
    have hgrows : g ∈ rows := (List.mem_filter.mp hg).1
    have hgkey : statcastKey g = statcastKey r := by
      have := (List.mem_filter.mp hg).2
      simpa using this
    have h1 : m ≤ r.id := listMinN_le hm r.id hrid
    have h2 : r.id ≤ g.id := hmin g hgrows hgkey
    have heq : m = r.id := by omega
    have hfin : r.id ∈ groupMinIds rows :=
      List.mem_filterMap.mpr ⟨statcastKey r, hkmem, by rw [hm]; exact congrArg some heq⟩
    have : List.elem r.id (groupMinIds rows) = true := List.elem_iff.mpr hfin
    exact this

theorem dateList_cons {s e : Int} (h : s ≤ e) :
    dateList s e = s :: dateList (s + 1) e := by
  rw [dateList]
  simp [h]

theorem dateList_nil {s e : Int} (h : ¬ s ≤ e) : dateList s e = [] := by
  rw [dateList]
  simp [h]

theorem mem_dateList_aux : ∀ (n : Nat) (s e d : Int), (e + 1 - s).toNat = n →
    s ≤ d → d ≤ e → d ∈ dateList s e := by
  intro n
  induction n with
  | zero => intro s e d hn h1 h2; omega
  | succ k ih =>
      intro s e d hn h1 h2
      have hs : s ≤ e := by omega
      rw [dateList_cons hs]
      by_cases hd : d = s
      · exact hd ▸ List.mem_cons_self s _
      · exact List.mem_cons_of_mem s (ih (s + 1) e d (by omega) (by omega) h2)

theorem range_foldl_aux : ∀ (n : Nat) (today : Int) (responses : Int → FetchResult)
    (s e : Int), (e + 1 - s).toNat = n → ∀ db : DB,
    fetch_and_store_date_range today responses s e db =
      (dateList s e).foldl
        (fun acc d => fetch_and_store_single_day today d (responses d) acc) db := by
  intro n
  induction n with
  | zero =>
      intro today responses s e hn db
      have hs : ¬ s ≤ e := by omega
      rw [fetch_and_store_date_range, dateList_nil hs]
      simp [hs]
  | succ k ih =>
      intro today responses s e hn db
      have hs : s ≤ e := by omega
      rw [fetch_and_store_date_range, dateList_cons hs]
      simp only [hs, dif_pos, List.foldl_cons]
      exact ih today responses (s + 1) e (by omega) _

theorem load_player_register_db (chadwick : List RegRow) (st : MgrState) :
    (load_player_register chadwick st).1.db = st.db := by
  cases h : st.player_register <;> simp [load_player_register, h]

theorem get_player_id_fst (chadwick : List RegRow) (player_name : String)
    (st : MgrState) :
    (get_player_id_from_name chadwick player_name st).1 =
      (load_player_register chadwick st).1 := rfl

theorem lookupIdInRegister_no_comma {register : List RegRow} {player_name : String}
    (h : containsComma player_name = false) :
    lookupIdInRegister register player_name = none := by
  unfold lookupIdInRegister
  simp [h]

/-! ### The claims -/

/-- C1, counterexample to the claim as stated: the retention sweep with
window 45 run on day 100 leaves a data_updates (update ledger) row whose
data_date 0 is strictly before the cutoff 55 — the sweep touches only
three of the four tables, never the ledger. -/
theorem remove_old_data_ledger_cex :
    ¬ ((remove_old_data 100 45 exDB1).data_updates.all
        (fun r => decide (100 - 45 ≤ r.data_date)) = true) := by decide

/-- C1 (amended): after a retention sweep with window W run on a given
day, no row of daily_hitting, daily_pitching or statcast_data has a date
strictly before the cutoff (run-day minus W); rows dated at or after the
cutoff are not deleted; the data_updates ledger is left untouched. -/
theorem remove_old_data_spec (today days_to_keep : Int) (db : DB) :
    ((remove_old_data today days_to_keep db).daily_hitting.all
        (fun r => decide (today - days_to_keep ≤ r.date)) = true) ∧
    ((remove_old_data today days_to_keep db).daily_pitching.all
        (fun r => decide (today - days_to_keep ≤ r.date)) = true) ∧
    ((remove_old_data today days_to_keep db).statcast_data.all
        (fun r => decide (today - days_to_keep ≤ r.date)) = true) ∧
    (∀ r ∈ db.daily_hitting, today - days_to_keep ≤ r.date →
        r ∈ (remove_old_data today days_to_keep db).daily_hitting) ∧
    (∀ r ∈ db.daily_pitching, today - days_to_keep ≤ r.date →
        r ∈ (remove_old_data today days_to_keep db).daily_pitching) ∧
    (∀ r ∈ db.statcast_data, today - days_to_keep ≤ r.date →
        r ∈ (remove_old_data today days_to_keep db).statcast_data) ∧
    (remove_old_data today days_to_keep db).data_updates = db.data_updates := by
  refine ⟨?_, ?_, ?_, ?_, ?_, ?_, rfl⟩
  · apply List.all_eq_true.mpr
    intro r hr
    have h2 := (List.mem_filter.mp hr).2
    simp at h2 ⊢
    omega
  · apply List.all_eq_true.mpr
    intro r hr
    have h2 := (List.mem_filter.mp hr).2
    simp at h2 ⊢
    omega
  · apply List.all_eq_true.mpr
    intro r hr
    have h2 := (List.mem_filter.mp hr).2
    simp at h2 ⊢
    omega
  · intro r hr hd
    exact List.mem_filter.mpr ⟨hr, by simp; omega⟩
  · intro r hr hd
    exact List.mem_filter.mpr ⟨hr, by simp; omega⟩
  · intro r hr hd
    exact List.mem_filter.mpr ⟨hr, by simp; omega⟩

/-- Witness for C1: a hitting row dated 60 survives the sweep with window
45 run on day 100. -/
theorem remove_old_data_spec_witness :
    exHitRow ∈ (remove_old_data 100 45 exDB1).daily_hitting :=
  (remove_old_data_spec 100 45 exDB1).2.2.2.1 exHitRow (by decide) (by decide)

/-- C2, counterexample to the claim as stated: an upstream response with
zero rows records no ledger entry at all for the date (the code only
prints a message and returns). -/
theorem fetch_empty_day_cex :
    ¬ (∃ r ∈ (fetch_and_store_single_day 200 10 (.rows []) exDB0).data_updates,
        r.data_date = 10 ∧ r.records_added = 0) := by decide

/-- C2 (amended): for a date on which the source returns zero rows,
fetch_and_store_single_day leaves the database entirely unchanged — in
particular it records no ledger entry — and returns without error (the
embedded driver is total). -/
theorem fetch_empty_day_spec (today date : Int) (db : DB) :
    fetch_and_store_single_day today date (.rows []) db = db := rfl

/-- C4 (confirmed): the barrel flag is true iff launch speed is at least
98 and launch angle lies in the closed interval [26, 30]; it is true at
(99, 28), false at launch speed 90 or launch angle 40, false whenever
either value is missing; and every pitch-event row stored for a fetched
day carries barrel = barrelFlag of its own launch speed and angle. -/
theorem barrel_flag_spec :
    (∀ s a : Rat, barrelFlag (some s) (some a) = true ↔ (98 ≤ s ∧ 26 ≤ a ∧ a ≤ 30)) ∧
    (∀ a, barrelFlag none a = false) ∧
    (∀ s, barrelFlag (some s) none = false) ∧
    barrelFlag (some 99) (some 28) = true ∧
    barrelFlag (some 90) (some 28) = false ∧
    barrelFlag (some 99) (some 40) = false ∧
    (∀ (today d : Int) (data : List RawRow) (db : DB), data ≠ [] →
      ∀ r ∈ (fetch_and_store_single_day today d (.rows data) db).statcast_data,
        r.date = d → r.barrel = barrelFlag r.launch_speed r.launch_angle) := by
  refine ⟨?_, ?_, ?_, by decide, by decide, by decide, ?_⟩
  · intro s a
    unfold barrelFlag
    simp [and_assoc]
  · intro a
    cases a <;> rfl
  · intro s
    rfl
  · intro today d data db hne r hrmem hrd
    have hs := (singleDay_rows_statcast today d data db hne).1
    rw [hs] at hrmem
    rcases List.mem_append.mp hrmem with hmem | hmem
    · exfalso
      have h2 := (List.mem_filter.mp hmem).2
      simp at h2
      exact h2 hrd
    · rcases mem_assignIds hmem with ⟨i, raw, _hraw, hr⟩
      subst hr
      rfl

/-- Witness for C4: the row stored for the fetched day from a raw row
with launch speed 99 and angle 28 carries the derived barrel flag. -/
theorem barrel_flag_spec_witness :
    (mkStoredRow 10 1 exRaw99).barrel =
      barrelFlag (mkStoredRow 10 1 exRaw99).launch_speed
        (mkStoredRow 10 1 exRaw99).launch_angle :=
  barrel_flag_spec.2.2.2.2.2.2 200 10 [exRaw99] exDB0 (by decide)
    (mkStoredRow 10 1 exRaw99) (by decide) rfl

/-- C9 (confirmed): the first load_player_register call caches the
filtered register; any later call — even against a changed external
register — returns the cached state and mapping unchanged, without
re-fetching. -/
theorem load_player_register_once (chadwick chadwick2 : List RegRow) (st : MgrState) :
    (load_player_register chadwick st).1.player_register =
        some (load_player_register chadwick st).2 ∧
    load_player_register chadwick2 (load_player_register chadwick st).1 =
        load_player_register chadwick st := by
  cases h : st.player_register <;> simp [load_player_register, h]

/-- C10, counterexample to the claim as stated: on a fresh manager state
a comma-less name does return None, but the call consults the player
directory first — the register cache goes from unloaded to loaded. -/
theorem get_player_id_no_comma_cex :
    (get_player_id_from_name chadwick0 "Mike Trout"
        { db := exDB0, player_register := none }).2 = none ∧
    ¬ ((get_player_id_from_name chadwick0 "Mike Trout"
        { db := exDB0, player_register := none }).1.player_register = none) := by
  decide

/-- C10 (amended): a name without a comma always resolves to None (though
the register is loaded, and cached, before the comma test), and
get_player_data consequently matches pitch events by player_name only for
such a name. -/
theorem get_player_id_no_comma_spec (chadwick : List RegRow) (player_name : String)
    (st : MgrState) (start_date end_date : Option Int) (today : Int)
    (h : containsComma player_name = false) :
    (get_player_id_from_name chadwick player_name st).2 = none ∧
    (get_player_data chadwick player_name start_date end_date today st).2.statcast =
      orderByDateDesc (fun r => r.date)
        (st.db.statcast_data.filter (fun r =>
          r.player_name == some player_name &&
          decide (start_date.getD (today - 45) ≤ r.date) &&
          decide (r.date ≤ end_date.getD today))) := by
  have h1 : (get_player_id_from_name chadwick player_name st).2 = none := by
    show lookupIdInRegister (load_player_register chadwick st).2 player_name = none
    exact lookupIdInRegister_no_comma h
  refine ⟨h1, ?_⟩
  simp only [get_player_data, h1]
  rw [get_player_id_fst, load_player_register_db]

/-- Witness for C10: the concrete comma-less lookup resolves to None. -/
theorem get_player_id_no_comma_spec_witness :
    (get_player_id_from_name chadwick0 "Mike Trout"
        { db := exDB8, player_register := none }).2 = none :=
  (get_player_id_no_comma_spec chadwick0 "Mike Trout"
      { db := exDB8, player_register := none } none none 100 (by decide)).1

/-- C8 (confirmed): when a player name cannot be resolved to an id, the
pitch-event lookup falls back to name-only matching, and a player absent
from all three tables yields empty result sets — get_player_data is a
total function and raises nothing. -/
theorem get_player_data_fallback_empty (chadwick : List RegRow) (player_name : String)
    (start_date end_date : Option Int) (today : Int) (st : MgrState)
    (h1 : (get_player_id_from_name chadwick player_name st).2 = none)
    (h2 : st.db.daily_hitting.all (fun r => !(r.player_name == player_name)) = true)
    (h3 : st.db.daily_pitching.all (fun r => !(r.player_name == player_name)) = true)
    (h4 : st.db.statcast_data.all (fun r => !(r.player_name == some player_name)) = true) :
    (get_player_data chadwick player_name start_date end_date today st).2 =
      { hitting := [], pitching := [], statcast := [] } := by
  have hdb : (get_player_id_from_name chadwick player_name st).1.db = st.db := by
    rw [get_player_id_fst, load_player_register_db]
  simp only [get_player_data, h1, hdb]
  have hh : st.db.daily_hitting.filter (fun r =>
      r.player_name == player_name && decide (start_date.getD (today - 45) ≤ r.date) &&
        decide (r.date ≤ end_date.getD today)) = [] := by
    apply List.filter_eq_nil_iff.mpr
    intro r hr
    have hb : (r.player_name == player_name) = false := by
      have := List.all_eq_true.mp h2 r hr
      simpa using this
    simp [hb]
  have hp : st.db.daily_pitching.filter (fun r =>
      r.player_name == player_name && decide (start_date.getD (today - 45) ≤ r.date) &&
        decide (r.date ≤ end_date.getD today)) = [] := by
    apply List.filter_eq_nil_iff.mpr
    intro r hr
    have hb : (r.player_name == player_name) = false := by
      have := List.all_eq_true.mp h3 r hr
      simpa using this
    simp [hb]
  have hs : st.db.statcast_data.filter (fun r =>
      r.player_name == some player_name && decide (start_date.getD (today - 45) ≤ r.date) &&
        decide (r.date ≤ end_date.getD today)) = [] := by
    apply List.filter_eq_nil_iff.mpr
    intro r hr
    have hb : (r.player_name == some player_name) = false := by
      have := List.all_eq_true.mp h4 r hr
      simpa using this
    simp [hb]
  rw [hh, hp, hs]
  rfl

/-- Witness for C8: looking up a player absent from every table, with a
name that resolves to no id, yields three empty result sets. -/
theorem get_player_data_fallback_empty_witness :
    (get_player_data chadwick0 "Mike Trout" none none 100
        { db := exDB8, player_register := none }).2 =
      { hitting := [], pitching := [], statcast := [] } :=
  get_player_data_fallback_empty chadwick0 "Mike Trout" none none 100
    { db := exDB8, player_register := none } (by decide) (by decide) (by decide)
    (by decide)

/-- C5 (confirmed): with a fixed upstream response, fetching and storing
the same date twice leaves the same pitch-event rows for that date (same
count, same content up to the surrogate id) as fetching it once, because
a non-empty fetch always deletes the existing rows for the date before
inserting the freshly fetched set. -/
theorem fetch_twice_idempotent (today1 today2 d : Int) (resp : FetchResult) (db : DB) :
    (((fetch_and_store_single_day today2 d resp
          (fetch_and_store_single_day today1 d resp db)).statcast_data.filter
        (fun r => decide (r.date = d))).map eraseId =
      ((fetch_and_store_single_day today1 d resp db).statcast_data.filter
        (fun r => decide (r.date = d))).map eraseId) ∧
    (((fetch_and_store_single_day today2 d resp
          (fetch_and_store_single_day today1 d resp db)).statcast_data.filter
        (fun r => decide (r.date = d))).length =
      ((fetch_and_store_single_day today1 d resp db).statcast_data.filter
        (fun r => decide (r.date = d))).length) ∧
    (∀ data : List RawRow, data ≠ [] →
      (fetch_and_store_single_day today1 d (.rows data) db).statcast_data =
        db.statcast_data.filter (fun r => decide (r.date ≠ d)) ++
          assignIds d db.next_statcast_id data) := by
  have hmain : ((fetch_and_store_single_day today2 d resp
          (fetch_and_store_single_day today1 d resp db)).statcast_data.filter
        (fun r => decide (r.date = d))).map eraseId =
      ((fetch_and_store_single_day today1 d resp db).statcast_data.filter
        (fun r => decide (r.date = d))).map eraseId := by
    cases resp with
    | error msg =>
        rw [(singleDay_error_effect today2 d msg _).1,
          (singleDay_error_effect today1 d msg db).1]
    | rows data =>
        by_cases hd : data = []
        · subst hd
          rfl
        · have h1 := (singleDay_rows_statcast today1 d data db hd).1
          have hn1 := (singleDay_rows_statcast today1 d data db hd).2.1
          have h2 := (singleDay_rows_statcast today2 d data
            (fetch_and_store_single_day today1 d (.rows data) db) hd).1
          rw [h2, h1, hn1]
          simp only [List.filter_append, filter_ne_idem, filter_ne_assignIds,
            List.append_nil, filter_eq_of_filter_ne, filter_eq_assignIds,
            List.nil_append, assignIds_map_eraseId]
  refine ⟨hmain, ?_, fun data hd => (singleDay_rows_statcast today1 d data db hd).1⟩
  have hlen := congrArg List.length hmain
  simpa using hlen

/-- Witness for C5: on an empty database a non-empty fetch stores exactly
the freshly assigned rows after deleting the (zero) existing rows. -/
theorem fetch_twice_idempotent_witness :
    (fetch_and_store_single_day 200 10 (.rows [exRaw99]) exDB0).statcast_data =
      exDB0.statcast_data.filter (fun r => decide (r.date ≠ 10)) ++
        assignIds 10 exDB0.next_statcast_id [exRaw99] :=
  (fetch_twice_idempotent 200 201 10 (.rows [exRaw99]) exDB0).2.2 [exRaw99]
    (by decide)

/-- C6, counterexample to the claim as stated: running the fetch twice on
a date whose upstream response is empty leaves zero ledger rows for that
date, not exactly one. -/
theorem ledger_twice_cex :
    ¬ (((fetch_and_store_single_day 201 10 (.rows [])
          (fetch_and_store_single_day 200 10 (.rows []) exDB0)).data_updates.countP
        (fun r => decide (r.data_date = 10))) = 1) := by decide

/-- C6 (amended): at most one ledger row per data date is preserved by
every fetch, and running the fetch twice for the same date with a
recording outcome — a non-empty row set, or an error — leaves exactly one
ledger row for that date, carrying the most recent run record count and
status (INSERT OR REPLACE on the unique data_date key, last write wins).
An empty response records nothing, so it cannot create the row. -/
theorem ledger_replace_semantics :
    (∀ (today d : Int) (resp : FetchResult) (db : DB),
      (∀ dd : Int, db.data_updates.countP (fun r => decide (r.data_date = dd)) ≤ 1) →
      ∀ dd : Int,
        (fetch_and_store_single_day today d resp db).data_updates.countP
          (fun r => decide (r.data_date = dd)) ≤ 1) ∧
    (∀ (t1 t2 d : Int) (data : List RawRow) (db : DB), data ≠ [] →
      ((fetch_and_store_single_day t2 d (.rows data)
          (fetch_and_store_single_day t1 d (.rows data) db)).data_updates.filter
        (fun r => decide (r.data_date = d))) =
        [{ update_date := t2, data_date := d, records_added := (data.length : Int),
           status := "success" }]) ∧
    (∀ (t1 t2 d : Int) (msg : String) (db : DB),
      ((fetch_and_store_single_day t2 d (.error msg)
          (fetch_and_store_single_day t1 d (.error msg) db)).data_updates.filter
        (fun r => decide (r.data_date = d))) =
        [{ update_date := t2, data_date := d, records_added := 0,
           status := "error: " ++ msg }]) := by
  refine ⟨?_, ?_, ?_⟩
  · intro today d resp db hinv dd
    cases resp with
    | error msg =>
        rw [(singleDay_error_effect today d msg db).2.2.2.2]
        exact ledgerUpsert_atMostOne db.data_updates _ hinv dd
    | rows data =>
        by_cases hd : data = []
        · subst hd
          rw [singleDay_empty_noop]
          exact hinv dd
        · rw [(singleDay_rows_statcast today d data db hd).2.2]
          exact ledgerUpsert_atMostOne db.data_updates _ hinv dd
  · intro t1 t2 d data db hd
    rw [(singleDay_rows_statcast t2 d data
      (fetch_and_store_single_day t1 d (.rows data) db) hd).2.2]
    simpa using ledgerUpsert_filter
      (fetch_and_store_single_day t1 d (.rows data) db).data_updates
      { update_date := t2, data_date := d, records_added := (data.length : Int),
        status := "success" }
  · intro t1 t2 d msg db
    rw [(singleDay_error_effect t2 d msg
      (fetch_and_store_single_day t1 d (.error msg) db)).2.2.2.2]
    simpa using ledgerUpsert_filter
      (fetch_and_store_single_day t1 d (.error msg) db).data_updates
      { update_date := t2, data_date := d, records_added := 0,
        status := "error: " ++ msg }

/-- Witness for C6: two fetches of day 10 with a fixed one-row response
leave exactly one ledger row for day 10, recording the second run. -/
theorem ledger_replace_semantics_witness :
    ((fetch_and_store_single_day 201 10 (.rows [exRaw99])
        (fetch_and_store_single_day 200 10 (.rows [exRaw99]) exDB0)).data_updates.filter
      (fun r => decide (r.data_date = 10))) =
      [{ update_date := 201, data_date := 10, records_added := 1,
         status := "success" }] := by
  have h := ledger_replace_semantics.2.1 200 201 10 [exRaw99] exDB0 (by decide)
  simpa using h

/-- C7 (confirmed): the embedded single-day driver is a total function —
an exception from the remote call or the database write (the error
response) only records a ledger entry with status "error: <message>" and
leaves the pitch-event table unchanged — and the range driver equals a
fold of the single-day driver over the full date list, which contains
every date of the closed range, so every date is processed regardless of
individual-day failures. -/
theorem fetch_error_containment :
    (∀ (today d : Int) (msg : String) (db : DB),
      ((fetch_and_store_single_day today d (.error msg) db).data_updates.filter
          (fun r => decide (r.data_date = d))) =
        [{ update_date := today, data_date := d, records_added := 0,
           status := "error: " ++ msg }] ∧
      (fetch_and_store_single_day today d (.error msg) db).statcast_data =
        db.statcast_data) ∧
    (∀ (today : Int) (responses : Int → FetchResult) (s e : Int) (db : DB),
      fetch_and_store_date_range today responses s e db =
        (dateList s e).foldl
          (fun acc d => fetch_and_store_single_day today d (responses d) acc) db) ∧
    (∀ s e d : Int, s ≤ d → d ≤ e → d ∈ dateList s e) := by
  refine ⟨?_, ?_, ?_⟩
  · intro today d msg db
    constructor
    · rw [(singleDay_error_effect today d msg db).2.2.2.2]
      simpa using ledgerUpsert_filter db.data_updates
        { update_date := today, data_date := d, records_added := 0,
          status := "error: " ++ msg }
    · exact (singleDay_error_effect today d msg db).1
  · intro today responses s e db
    exact range_foldl_aux (e + 1 - s).toNat today responses s e rfl db
  · intro s e d h1 h2
    exact mem_dateList_aux (e + 1 - s).toNat s e d rfl h1 h2

/-- Witness for C7: day 5 lies in the visited date list of the range
from 3 to 7. -/
theorem fetch_error_containment_witness : (5 : Int) ∈ dateList 3 7 :=
  fetch_error_containment.2.2 3 7 5 (by decide) (by decide)

/-- C3 (confirmed): when the surrogate ids are distinct (they are, being
an AUTOINCREMENT primary key), after remove_duplicate_data every
seven-field natural-key group present before contains exactly one row,
every surviving row is an original row that carries the smallest id of
its group, and the returned count is rows-before minus rows-after. -/
theorem remove_duplicate_data_spec (db : DB)
    (hnd : (db.statcast_data.map (fun r => r.id)).Nodup) :
    (∀ k ∈ db.statcast_data.map statcastKey,
        ((remove_duplicate_data db).1.statcast_data.countP
          (fun r => decide (statcastKey r = k))) = 1) ∧
    (∀ r ∈ (remove_duplicate_data db).1.statcast_data,
        r ∈ db.statcast_data ∧
          ∀ s ∈ db.statcast_data, statcastKey s = statcastKey r → r.id ≤ s.id) ∧
    (remove_duplicate_data db).2 =
      db.statcast_data.length - (remove_duplicate_data db).1.statcast_data.length := by
  have hinj : ∀ ⦃x⦄, x ∈ db.statcast_data → ∀ ⦃y⦄, y ∈ db.statcast_data →
      x.id = y.id → x = y := List.inj_on_of_nodup_map hnd
  have hnodup_rows : db.statcast_data.Nodup := List.Nodup.of_map _ hnd
  refine ⟨?_, ?_, rfl⟩
  · intro k hk
    rcases List.mem_map.mp hk with ⟨g0, hg0, hkg0⟩
    have hg0grp : g0 ∈ db.statcast_data.filter (fun x => decide (statcastKey x = k)) :=
      List.mem_filter.mpr ⟨hg0, by simp [hkg0]⟩
    have hg0id : g0.id ∈ (db.statcast_data.filter
        (fun x => decide (statcastKey x = k))).map (fun x => x.id) :=
      List.mem_map.mpr ⟨g0, hg0grp, rfl⟩
    have hne : (db.statcast_data.filter
        (fun x => decide (statcastKey x = k))).map (fun x => x.id) ≠ [] := by
      intro hcon
      rw [hcon] at hg0id
      cases hg0id
    rcases listMinN_ne_nil hne with ⟨m, hm⟩
    rcases List.mem_map.mp (listMinN_mem hm) with ⟨gmin, hgmin, hgminid⟩
    have hgminrows : gmin ∈ db.statcast_data := (List.mem_filter.mp hgmin).1
    have hgminkey : statcastKey gmin = k := by
      have := (List.mem_filter.mp hgmin).2
      simpa using this
    have hgmin_min : ∀ s ∈ db.statcast_data, statcastKey s = k → gmin.id ≤ s.id := by
      intro s hs hks
      have hsgrp : s ∈ db.statcast_data.filter (fun x => decide (statcastKey x = k)) :=
        List.mem_filter.mpr ⟨hs, by simp [hks]⟩
      have hsid : s.id ∈ (db.statcast_data.filter
          (fun x => decide (statcastKey x = k))).map (fun x => x.id) :=
        List.mem_map.mpr ⟨s, hsgrp, rfl⟩
      have := listMinN_le hm s.id hsid
      omega
    have hc2 : List.countP (fun x => x == gmin) db.statcast_data = 1 := by
      rw [← List.count_eq_countP]
      exact List.count_eq_one_of_mem hnodup_rows hgminrows
    show List.countP (fun r => decide (statcastKey r = k))
        (db.statcast_data.filter (fun r => (groupMinIds db.statcast_data).contains r.id)) = 1
    rw [List.countP_filter]
    refine Eq.trans (List.countP_congr ?_) hc2
    intro x hx
    constructor
    · intro hxx
      have hxk : statcastKey x = k := of_decide_eq_true (Bool.and_eq_true_iff.mp hxx).1
      have hxc : (groupMinIds db.statcast_data).contains x.id = true :=
        (Bool.and_eq_true_iff.mp hxx).2
      have hxmin := (mem_groupMinIds hnd hx).mp hxc
      have e1 : x.id ≤ gmin.id := hxmin gmin hgminrows (by rw [hgminkey, hxk])
      have e2 : gmin.id ≤ x.id := hgmin_min x hx hxk
      have hxg : x = gmin := hinj hx hgminrows (by omega)
      simp [hxg]
    · intro hxg
      have hxg2 : x = gmin := by simpa using hxg
      subst hxg2
      apply Bool.and_eq_true_iff.mpr
      refine ⟨decide_eq_true hgminkey, ?_⟩
      apply (mem_groupMinIds hnd hx).mpr
      intro s hs hks
      exact hgmin_min s hs (by rw [hks, hgminkey])
  · intro r hr
    have hmem := List.mem_filter.mp hr
    exact ⟨hmem.1, (mem_groupMinIds hnd hmem.1).mp hmem.2⟩

/-- Witness for C3: in a table with ids 1, 2, 3 where rows 1 and 2 share
the natural key, the duplicated key group retains exactly one row. -/
theorem remove_duplicate_data_spec_witness :
    ((exDB3.statcast_data.map (fun r => r.id)).Nodup) ∧
    ((remove_duplicate_data exDB3).1.statcast_data.countP
      (fun r => decide (statcastKey r = statcastKey exRow1))) = 1 :=
  ⟨by decide,
   (remove_duplicate_data_spec exDB3 (by decide)).1 (statcastKey exRow1) (by decide)⟩
